import Mathlib

/-!
Verification of the retrieval-augmented answer pipeline of the
`uplifted-mascot` repository.

The development shallowly embeds the algorithmic core of the repository:

* `scripts/process_docs.py` — `chunk_text` (paragraph/sentence chunker);
* `rag-service/rag_service.py` — `retrieve_context` (retrieval and hit
  normalization), `generate_response` (context assembly, truncation and
  generation error recovery), the inline confidence computation of
  `ask_mascot`, and the `/ask-mascot` endpoint logic.

Python strings are modelled as `List Char`; Python numeric distances as `ℚ`;
Python exceptions as an explicit `PyExc` error type threaded through
`Except`.  Every definition is translated directly from the source.
-/

/-- Python strings are modelled as lists of characters. -/
abbrev PyStr := List Char

/-- Coerce a Lean string literal to the `PyStr` model. -/
def str (s : String) : PyStr := s.data

/-- Python `str.isspace` / regex `\s` character class:
space, tab, newline, carriage return, vertical tab, form feed. -/
def pyIsSpace (c : Char) : Bool :=
  c = ' ' || c = '\t' || c = '\n' || c = '\r' || c = '\x0b' || c = '\x0c'

/-- Python `str.strip()`: drop leading and trailing whitespace. -/
def pyStrip (s : PyStr) : PyStr :=
  ((s.dropWhile pyIsSpace).reverse.dropWhile pyIsSpace).reverse

/-- The `re.sub(r'\n{3,}', '\n\n', text)` normalization of `chunk_text`
(`process_docs.py` line 31): every maximal run of three or more newlines is
replaced by exactly two.  Equivalently, a newline is dropped exactly when it
is immediately followed by two further newlines, which keeps the last two
newlines of every long run. -/
def collapseNewlines : PyStr → PyStr
  | [] => []
  | c :: rest =>
    if c = '\n' ∧ rest.head? = some '\n' ∧ rest.tail.head? = some '\n' then
      collapseNewlines rest
    else
      c :: collapseNewlines rest

/-- Python `text.split('\n\n')` (`process_docs.py` line 34): split on each
non-overlapping occurrence of a double newline, scanning left to right. -/
def splitParas : PyStr → List PyStr
  | [] => [[]]
  | [c] => [[c]]
  | c1 :: c2 :: rest =>
    if c1 = '\n' ∧ c2 = '\n' then [] :: splitParas rest
    else (splitParas (c2 :: rest)).modifyHead (c1 :: ·)

/-- Characters matched by the regex class `[.!?]`. -/
def isPunct (c : Char) : Bool := c = '.' || c = '!' || c = '?'

/-- Fuel-indexed worker for `splitSentences`; the fuel strictly exceeds the
number of characters still to scan, so the zero-fuel case is unreachable. -/
def splitSentencesAux : Nat → PyStr → List PyStr
  | _, [] => [[]]
  | 0, s => [s]
  | fuel + 1, c :: rest =>
    if isPunct c then
      let punct := rest.takeWhile isPunct
      let afterP := rest.drop punct.length
      let ws := afterP.takeWhile pyIsSpace
      if 0 < ws.length then
        [] :: splitSentencesAux fuel (afterP.drop ws.length)
      else
        (splitSentencesAux fuel afterP).modifyHead (fun t => c :: (punct ++ t))
    else
      (splitSentencesAux fuel rest).modifyHead (c :: ·)

/-- Python `re.split(r'[.!?]+\s+', para)` (`process_docs.py` line 56): a
delimiter is a maximal run of sentence punctuation followed by at least one
whitespace character. -/
def splitSentences (s : PyStr) : List PyStr := splitSentencesAux s.length s

/-- Python `'\n\n'.join(parts)`. -/
def joinNN : List PyStr → PyStr
  | [] => []
  | [x] => x
  | x :: y :: rest => x ++ '\n' :: '\n' :: joinNN (y :: rest)

/-- The mutable loop state of `chunk_text`: the emitted `chunks`, the
`current_chunk` buffer of paragraph/sentence parts, and `current_size`. -/
structure ChunkState where
  chunks : List PyStr
  buf : List PyStr
  size : Nat
deriving DecidableEq

/-- One iteration of the sentence loop of `chunk_text`
(`process_docs.py` lines 57-68). -/
def stepSentence (m : Nat) (st : ChunkState) (sRaw : PyStr) : ChunkState :=
  let s := pyStrip sRaw
  if s = [] then st
  else if m < st.size + s.length then
    { chunks := if st.buf = [] then st.chunks else st.chunks ++ [joinNN st.buf],
      buf := [s], size := s.length }
  else
    { st with buf := st.buf ++ [s], size := st.size + s.length + 2 }

/-- Python `'\n\n'.join(current_chunk[-1:])`: the last element of a
non-empty buffer (the empty string on an empty buffer). -/
def lastElem (l : List PyStr) : PyStr := l.reverse.headD []

/-- One iteration of the paragraph loop of `chunk_text`
(`process_docs.py` lines 40-83), with `m` = `max_chunk_size` and
`o` = `overlap`. -/
def stepPara (m o : Nat) (st : ChunkState) (pRaw : PyStr) : ChunkState :=
  let p := pyStrip pRaw
  if p = [] then st
  else if m < p.length then
    let st1 : ChunkState :=
      if st.buf = [] then st
      else { chunks := st.chunks ++ [joinNN st.buf], buf := [], size := 0 }
    (splitSentences p).foldl (stepSentence m) st1
  else if m < st.size + p.length ∧ st.buf ≠ [] then
    let flushed := st.chunks ++ [joinNN st.buf]
    if 0 < o ∧ st.buf ≠ [] then
      let ov := lastElem st.buf
      { chunks := flushed, buf := [ov, p], size := ov.length + p.length + 2 }
    else
      { chunks := flushed, buf := [p], size := p.length }
  else
    { st with buf := st.buf ++ [p], size := st.size + p.length + 2 }

/-- Shallow embedding of `chunk_text(text, max_chunk_size, overlap)`
(`process_docs.py` lines 18-89). -/
def chunk_text (text : PyStr) (m o : Nat) : List PyStr :=
  let t := collapseNewlines text
  let paras := splitParas t
  let st := paras.foldl (stepPara m o) ⟨[], [], 0⟩
  if st.buf = [] then st.chunks else st.chunks ++ [joinNN st.buf]

/-- Python exceptions that can arise in the embedded service code, with the
`str(e)` rendering each carries. -/
inductive PyExc where
  | zeroDivisionError
  | indexError
  | attributeError (msg : PyStr)
  | invalidArgument (msg : PyStr)
  | other (msg : PyStr)
deriving DecidableEq

deriving instance DecidableEq for Except

/-- Whether an exception is the spec's `InvalidArgument`. -/
def PyExc.isInvalidArgument : PyExc → Bool
  | .invalidArgument _ => true
  | _ => false

/-- Python `str(e)` for each modelled exception. -/
def PyExc.message : PyExc → PyStr
  | .zeroDivisionError => str "division by zero"
  | .indexError => str "list index out of range"
  | .attributeError m => m
  | .invalidArgument m => m
  | .other m => m

/-- The metadata mapping of a vector-store hit; each key may be absent
(Python `metadata.get(key, default)`). -/
structure Metadata where
  file_path : Option PyStr := none
  filename : Option PyStr := none
  chunk_index : Option PyStr := none
deriving DecidableEq

/-- The normalized context-chunk record appended by `retrieve_context`
(`rag_service.py` lines 321-328). -/
structure RetrievedContext where
  text : PyStr
  file_path : PyStr
  filename : PyStr
  distance : ℚ
  id : PyStr
  chunk_index : PyStr
deriving DecidableEq

/-- Python `s.replace("\\", "/")`. -/
def slashNormalize (s : PyStr) : PyStr :=
  s.map (fun c => if c = '\\' then '/' else c)

/-- Python `s.split("/")`. -/
def splitSlash : PyStr → List PyStr
  | [] => [[]]
  | c :: rest =>
    if c = '/' then [] :: splitSlash rest
    else (splitSlash rest).modifyHead (c :: ·)

/-- Python `file_path.replace("\\", "/").split("/")[-1]`
(`rag_service.py` line 318). -/
def pyLastSegment (s : PyStr) : PyStr := (splitSlash (slashNormalize s)).getLastD []

/-- Normalization of one raw hit into a `RetrievedContext`
(`rag_service.py` lines 317-328): `file_path` from metadata with default
`""`, `filename` from metadata with default "last path segment of
file_path", `chunk_index` from metadata with default `""`. -/
def normalizeHit (doc_id text : PyStr) (md : Metadata) (dist : ℚ) :
    RetrievedContext :=
  let fp := md.file_path.getD []
  let fn := md.filename.getD (pyLastSegment fp)
  let ci := md.chunk_index.getD []
  { text := text, file_path := fp, filename := fn, distance := dist,
    id := doc_id, chunk_index := ci }

/-- The shape of a ChromaDB query result: per-query rows of ids, and
optional parallel rows of documents, metadatas and distances. -/
structure RawResults where
  ids : List (List PyStr)
  documents : Option (List (List PyStr))
  metadatas : Option (List (List Metadata))
  distances : Option (List (List ℚ))

/-- Python `results[f][0][i] if results[f] else default`: a falsy field
(absent or empty) yields the default, otherwise row 0 is indexed at `i`
and an out-of-range index raises `IndexError`. -/
def hitField {α : Type} (fld : Option (List (List α))) (dflt : α) (i : Nat) :
    Except PyExc α :=
  match fld with
  | none => .ok dflt
  | some [] => .ok dflt
  | some (row :: _) =>
    match row.get? i with
    | some v => .ok v
    | none => .error .indexError

/-- The result-formatting loop of `retrieve_context`
(`rag_service.py` lines 309-328), including the `IndexError` a malformed
(length-mismatched) store response would raise inside the `try` block. -/
def formatResults (r : RawResults) : Except PyExc (List RetrievedContext) :=
  match r.ids with
  | [] => .ok []
  | row0 :: _ =>
    (List.range row0.length).mapM (fun i => do
      let doc_id := row0.getD i []
      let text ← hitField r.documents [] i
      let md ← hitField r.metadatas {} i
      let dist ← hitField r.distances (0 : ℚ) i
      pure (normalizeHit doc_id text md dist))

/-- The external collaborators of `retrieve_context`: the embedding provider
and the vector store, each of which may fail with an exception. -/
structure RetrievalEnv where
  embed : PyStr → Except PyExc (List ℚ)
  query : List ℚ → Nat → Except PyExc RawResults

/-- The body of the `try` block of `retrieve_context`
(`rag_service.py` lines 293-330): embed the query, query the store, format
the hits; any step may raise. -/
def retrieveCore (env : RetrievalEnv) (query_text : PyStr) (top_k : Nat) :
    Except PyExc (List RetrievedContext) := do
  let emb ← env.embed query_text
  let r ← env.query emb top_k
  formatResults r

/-- Shallow embedding of `retrieve_context(query_text, top_k)`
(`rag_service.py` lines 282-336): the `except` clause converts every
exception into the empty result list. -/
def retrieve_context (env : RetrievalEnv) (query_text : PyStr) (top_k : Nat) :
    List RetrievedContext :=
  match retrieveCore env query_text top_k with
  | .ok l => l
  | .error _ => []

/-- The `"gooey"` personality string (`rag_service.py` lines 249-251). -/
def gooeyPersonality : PyStr :=
  str "You are Gooey, a friendly and helpful gelatinous cube mascot for Terasology. \nYou're enthusiastic about helping players and modders. You speak in a slightly quirky, \nencouraging way. Keep responses concise, helpful, and friendly."

/-- The `"bill"` personality string (`rag_service.py` lines 253-256). -/
def billPersonality : PyStr :=
  str "You are Bill, a pragmatic and governance-focused pig mascot for Demicracy. \nYou're knowledgeable about community governance, decision-making processes, and platform \ndemocracy. You speak clearly and helpfully, focusing on practical solutions. \nKeep responses concise and actionable."

/-- The `MASCOT_PERSONALITIES` dict (`rag_service.py` lines 248-257). -/
def MASCOT_PERSONALITIES : List (PyStr × PyStr) :=
  [(str "gooey", gooeyPersonality), (str "bill", billPersonality)]

/-- Python `d.get(k, default)` on the personality dict. -/
def dictGetD (d : List (PyStr × PyStr)) (k dflt : PyStr) : PyStr :=
  match d.find? (fun kv => decide (kv.1 = k)) with
  | some kv => kv.2
  | none => dflt

/-- The `"From {filename}:\n{text}"` join building `context_text`
(`rag_service.py` lines 355-358). -/
def contextBlock (chunks : List RetrievedContext) : PyStr :=
  joinNN (chunks.map (fun c => str "From " ++ c.filename ++ str ":\n" ++ c.text))

/-- The fixed instruction preamble between the personality and the context
block in the prompt f-string (`rag_service.py` lines 361-367 and 379-385). -/
def promptPreamble : PyStr :=
  str "\n\nUse the following context from the project documentation to answer the user's question.\nIf the context doesn't contain enough information, say so honestly.\n\nContext:\n"

/-- The `question_part` tail of the prompt (`rag_service.py` line 386). -/
def promptTail (question : PyStr) : PyStr :=
  str "\n\nQuestion: " ++ question ++ str "\n\nAnswer:"

/-- The literal truncation marker (`rag_service.py` line 390). -/
def truncationMarker : PyStr := str "\n\n[Context truncated due to length limits]"

/-- Python `s[:n]` for an `int` bound `n`: a negative bound counts from the
end, clamped at the start of the string. -/
def pyTake (s : PyStr) (n : Int) : PyStr :=
  if 0 ≤ n then s.take n.toNat else s.take ((s.length : Int) + n).toNat

/-- The `personality_and_question` head of the truncated prompt
(`rag_service.py` lines 379-385): personality followed by the fixed
preamble. -/
def promptHead (personality : PyStr) : PyStr := personality ++ promptPreamble

/-- The `available_chars` computation (`rag_service.py` line 387), a Python
`int` that can go negative when head and tail alone exceed the budget. -/
def availableChars (personality question : PyStr) (maxInputChars : Nat) : Int :=
  (maxInputChars : Int) - (promptHead personality).length - (promptTail question).length

/-- Context assembly with the truncation policy of `generate_response`
(`rag_service.py` lines 354-391): compose
`personality ++ preamble ++ context ++ tail` and, when the composed length
exceeds `maxInputChars`, truncate the context block via Python slicing and
append the truncation marker. -/
def buildPrompt (personality : PyStr) (chunks : List RetrievedContext)
    (question : PyStr) (maxInputChars : Nat) : PyStr :=
  let context_text := contextBlock chunks
  let prompt := personality ++ promptPreamble ++ context_text ++ promptTail question
  if maxInputChars < prompt.length then
    let available := availableChars personality question maxInputChars
    let context2 :=
      if available < (context_text.length : Int) then
        pyTake context_text available ++ truncationMarker
      else context_text
    promptHead personality ++ context2 ++ promptTail question
  else prompt

/-- The apology text of the `except` clause of `generate_response`
(`rag_service.py` line 421). -/
def apologyMsg : PyStr := str "I apologize, but I encountered an error: "

/-- Shallow embedding of `generate_response(question, context_chunks, mascot)`
(`rag_service.py` lines 338-421), parameterized by the generation provider
oracles: `gen` is `chat_model.generate_content`, `chat` the
`start_chat().send_message` fallback used when `gen` raises
`AttributeError`; any other exception — also one escaping the fallback —
is converted by the outer `except` into the apologetic answer carrying
`str(e)`. -/
def generate_response (question : PyStr) (context_chunks : List RetrievedContext)
    (mascot : PyStr) (maxInputChars : Nat)
    (gen chat : PyStr → Except PyExc PyStr) : PyStr :=
  let personality := dictGetD MASCOT_PERSONALITIES mascot gooeyPersonality
  let prompt := buildPrompt personality context_chunks question maxInputChars
  match gen prompt with
  | .ok t => t
  | .error (.attributeError _) =>
    match chat prompt with
    | .ok t => t
    | .error e => apologyMsg ++ e.message
  | .error e => apologyMsg ++ e.message

/-- Python `sum(chunk["distance"] for chunk in chunks) / len(chunks)`
(`rag_service.py` line 519). -/
def meanDistance (chunks : List RetrievedContext) : ℚ :=
  (chunks.map (fun c => c.distance)).sum / (chunks.length : ℚ)

/-- The Confidence Scorer: the inline computation of `ask_mascot`
(`rag_service.py` lines 519-520) as a component.  On an empty chunk list
the Python division `sum(...) / len(context_chunks)` raises
`ZeroDivisionError`; otherwise the score is
`max(0.0, min(1.0, 1.0 - avg_distance))`. -/
def confidence_score (chunks : List RetrievedContext) : Except PyExc ℚ :=
  if chunks.length = 0 then .error .zeroDivisionError
  else .ok (max 0 (min 1 (1 - meanDistance chunks)))

/-- The response model of the `/ask-mascot` endpoint. -/
structure AskResponse where
  response : PyStr
  sources : List PyStr
  confidence : ℚ
deriving DecidableEq

/-- The fixed no-context answer (`rag_service.py` line 501). -/
def noContextResponse : PyStr :=
  str "I couldn't find relevant information in the knowledge base. Please try rephrasing your question."

/-- Shallow embedding of the `ask_mascot` endpoint logic
(`rag_service.py` lines 460-538): mascot validation (`HTTPException 400`,
modelled as `Except.error 400`), retrieval, the empty-retrieval short
circuit, generation, source extraction and the inline confidence
computation. -/
def ask_mascot (env : RetrievalEnv) (mascot question : PyStr) (top_k : Nat)
    (maxInputChars : Nat) (gen chat : PyStr → Except PyExc PyStr) :
    Except Nat AskResponse :=
  if (MASCOT_PERSONALITIES.find? (fun kv => decide (kv.1 = mascot))).isNone then
    .error 400
  else
    let context_chunks := retrieve_context env question top_k
    if context_chunks = [] then
      .ok { response := noContextResponse, sources := [], confidence := 0 }
    else
      let response_text :=
        generate_response question context_chunks mascot maxInputChars gen chat
      let sources := context_chunks.map (fun c => c.file_path)
      let avg_distance := (context_chunks.map (fun c => c.distance)).sum /
        (context_chunks.length : ℚ)
      let confidence := max 0 (min 1 (1 - avg_distance))
      .ok { response := response_text, sources := sources, confidence := confidence }

/-- The clamp of the spec: `clamp(x, lo, hi)`. -/
def clamp (x lo hi : ℚ) : ℚ := max lo (min hi x)

/-- A retrieved chunk carrying only a distance; the other fields are
immaterial to the confidence scorer. -/
def distChunk (d : ℚ) : RetrievedContext :=
  { text := [], file_path := [], filename := [], distance := d, id := [],
    chunk_index := [] }

/-- A retrieval environment whose embedding provider raises. -/
def failingEnv : RetrievalEnv :=
  { embed := fun _ => Except.error (PyExc.other (str "embedding model unavailable")),
    query := fun _ _ => Except.error (PyExc.other (str "store unreachable")) }

/-- Whether a double newline (the paragraph separator) occurs anywhere in
the text. -/
def hasNN : PyStr → Bool
  | [] => false
  | [_] => false
  | c1 :: c2 :: rest => (c1 = '\n' && c2 = '\n') || hasNN (c2 :: rest)

/-- The invariant maintained by the chunker's loop state: emitted chunks are
bounded by `2 * m + 2`, buffered parts are bounded by `m`, the joined buffer
never exceeds the tracked `size`, the tracked `size` is bounded by
`2 * m + 2`, and an empty buffer has size zero. -/
def StateInv (m : Nat) (st : ChunkState) : Prop :=
  (∀ c ∈ st.chunks, c.length ≤ 2 * m + 2) ∧
  (∀ e ∈ st.buf, e.length ≤ m) ∧
  (joinNN st.buf).length ≤ st.size ∧
  st.size ≤ 2 * m + 2 ∧
  (st.buf = [] → st.size = 0)

/-- A single paragraph made of one thirty-character sentence and one
five-character sentence. -/
def bigSentencePara : PyStr :=
  List.replicate 30 'A' ++ str ". " ++ List.replicate 5 'B'

/-- The prompt that `generate_response` hands to the generation provider
for the given request. -/
def promptFor (mascot : PyStr) (chunks : List RetrievedContext)
    (question : PyStr) (maxc : Nat) : PyStr :=
  buildPrompt (dictGetD MASCOT_PERSONALITIES mascot gooeyPersonality)
    chunks question maxc

/-- C1: for every non-empty chunk sequence the confidence equals
`clamp(1 - mean(distance), 0, 1)`; it is monotonically non-increasing in
the mean distance, equals `1` when every distance is `0`, equals `0` when
every distance is `1`, is clamped to `0` for the single distance `2`, and
equals `7/10` for the distances `[1/5, 2/5]`. -/
theorem confidence_clamp_of_mean :
    (∀ chunks : List RetrievedContext, chunks ≠ [] →
      confidence_score chunks = Except.ok (clamp (1 - meanDistance chunks) 0 1)) ∧
    (∀ l1 l2 : List RetrievedContext, ∀ c1 c2 : ℚ, l1 ≠ [] → l2 ≠ [] →
      meanDistance l1 ≤ meanDistance l2 →
      confidence_score l1 = Except.ok c1 → confidence_score l2 = Except.ok c2 →
      c2 ≤ c1) ∧
    confidence_score [distChunk 0, distChunk 0, distChunk 0] = Except.ok 1 ∧
    confidence_score [distChunk 1, distChunk 1, distChunk 1] = Except.ok 0 ∧
    confidence_score [distChunk 2] = Except.ok 0 ∧
    confidence_score [distChunk (1/5), distChunk (2/5)] = Except.ok (7/10) := by
  have hfm : ∀ chunks : List RetrievedContext, chunks ≠ [] →
      confidence_score chunks = Except.ok (clamp (1 - meanDistance chunks) 0 1) := by
    intro chunks h
    have hlen : ¬ chunks.length = 0 := by simpa [List.length_eq_zero] using h
    simp [confidence_score, clamp, hlen]
  refine ⟨hfm, ?_, ?_, ?_, ?_, ?_⟩
  case refine_2 =>
    rw [hfm _ (by simp)]
    norm_num [clamp, meanDistance, distChunk, min_def, max_def]
  case refine_3 =>
    rw [hfm _ (by simp)]
    norm_num [clamp, meanDistance, distChunk, min_def, max_def]
  case refine_4 =>
    rw [hfm _ (by simp)]
    norm_num [clamp, meanDistance, distChunk, min_def, max_def]
  case refine_5 =>
    rw [hfm _ (by simp)]
    norm_num [clamp, meanDistance, distChunk, min_def, max_def]
  intro l1 l2 c1 c2 h1 h2 hm e1 e2
  rw [hfm l1 h1] at e1
  rw [hfm l2 h2] at e2
  have e1' : clamp (1 - meanDistance l1) 0 1 = c1 := by
    exact Except.ok.inj e1
  have e2' : clamp (1 - meanDistance l2) 0 1 = c2 := by
    exact Except.ok.inj e2
  rw [← e1', ← e2']
  unfold clamp
  exact max_le_max le_rfl (min_le_min le_rfl (by linarith))

/-- C1 witness: the formula conjunct applied at a concrete one-chunk list. -/
theorem confidence_clamp_of_mean_witness :
    confidence_score [distChunk (1/2)] =
      Except.ok (clamp (1 - meanDistance [distChunk (1/2)]) 0 1) :=
  confidence_clamp_of_mean.1 [distChunk (1/2)] (by decide)

/-- C2 counterexample: a hit with id `"docs/a.md:3"` and no metadata
normalizes to empty `file_path`, `filename` and `chunk_index`; the id is
not parsed, contradicting the claimed `file_path = "docs/a.md"`. -/
theorem normalizeHit_id_not_parsed :
    normalizeHit (str "docs/a.md:3") (str "chunk text") {} (1/2) =
      { text := str "chunk text", file_path := [], filename := [],
        distance := 1/2, id := str "docs/a.md:3", chunk_index := [] } ∧
    ¬ (normalizeHit (str "docs/a.md:3") (str "chunk text") {} (1/2)).file_path =
        str "docs/a.md" := by
  exact ⟨rfl, by decide⟩

/-- C2 amended: when the hit metadata carries no `file_path`, normalization
uses the default empty string for `file_path` and `chunk_index` (the id is
never parsed), and `filename` is the last path segment of `file_path`;
when metadata carries `file_path` but no `filename`, `filename` is derived
as the last slash-normalized path segment of that `file_path`. -/
theorem normalizeHit_defaults :
    (∀ doc_id text : PyStr, ∀ dist : ℚ,
      normalizeHit doc_id text {} dist =
        { text := text, file_path := [], filename := [], distance := dist,
          id := doc_id, chunk_index := [] }) ∧
    (∀ doc_id text fp : PyStr, ∀ dist : ℚ,
      normalizeHit doc_id text { file_path := some fp } dist =
        { text := text, file_path := fp, filename := pyLastSegment fp,
          distance := dist, id := doc_id, chunk_index := [] }) ∧
    pyLastSegment (str "docs/a.md") = str "a.md" := by
  exact ⟨fun _ _ _ => rfl, fun _ _ _ _ => rfl, by decide⟩

/-- C6 counterexample: invoked on an empty chunk sequence, the confidence
computation raises `ZeroDivisionError` from `sum(...) / len(...)`, which is
not the spec's `InvalidArgument`. -/
theorem confidence_score_empty_not_invalidArgument :
    confidence_score [] = Except.error PyExc.zeroDivisionError ∧
    PyExc.zeroDivisionError.isInvalidArgument = false :=
  ⟨rfl, rfl⟩

/-- C6 amended: on an empty chunk sequence the confidence scorer performs
the division by zero and fails with `ZeroDivisionError` (no
`InvalidArgument` guard exists in the code). -/
theorem confidence_score_empty_division_by_zero :
    confidence_score [] = Except.error PyExc.zeroDivisionError := rfl

/-- C3: a failure at any stage of retrieval — embedding error, store error,
or a malformed (length-mismatched) store response — makes
`retrieve_context` return the empty list rather than propagate the
exception. -/
theorem retrieve_context_error_to_empty :
    (∀ env : RetrievalEnv, ∀ q : PyStr, ∀ k : Nat, ∀ e : PyExc,
      env.embed q = Except.error e → retrieve_context env q k = []) ∧
    (∀ env : RetrievalEnv, ∀ q : PyStr, ∀ k : Nat, ∀ emb : List ℚ, ∀ e : PyExc,
      env.embed q = Except.ok emb → env.query emb k = Except.error e →
      retrieve_context env q k = []) ∧
    (∀ env : RetrievalEnv, ∀ q : PyStr, ∀ k : Nat, ∀ emb : List ℚ,
      ∀ r : RawResults, ∀ e : PyExc,
      env.embed q = Except.ok emb → env.query emb k = Except.ok r →
      formatResults r = Except.error e → retrieve_context env q k = []) := by
  have hcore : ∀ env : RetrievalEnv, ∀ q : PyStr, ∀ k : Nat, ∀ e : PyExc,
      retrieveCore env q k = Except.error e → retrieve_context env q k = [] := by
    intro env q k e h
    unfold retrieve_context
    rw [h]
  refine ⟨?_, ?_, ?_⟩
  · intro env q k e h
    apply hcore env q k e
    show Except.bind (env.embed q)
        (fun emb => Except.bind (env.query emb k) fun r => formatResults r) =
      Except.error e
    rw [h]
    rfl
  · intro env q k emb e h1 h2
    apply hcore env q k e
    show Except.bind (env.embed q)
        (fun emb => Except.bind (env.query emb k) fun r => formatResults r) =
      Except.error e
    rw [h1]
    show Except.bind (env.query emb k) (fun r => formatResults r) = Except.error e
    rw [h2]
    rfl
  · intro env q k emb r e h1 h2 h3
    apply hcore env q k e
    show Except.bind (env.embed q)
        (fun emb => Except.bind (env.query emb k) fun r => formatResults r) =
      Except.error e
    rw [h1]
    show Except.bind (env.query emb k) (fun r => formatResults r) = Except.error e
    rw [h2]
    show formatResults r = Except.error e
    exact h3

/-- C3 witness: a downed embedding provider yields the empty result. -/
theorem retrieve_context_error_to_empty_witness :
    retrieve_context failingEnv (str "what is Gooey?") 5 = [] :=
  retrieve_context_error_to_empty.1 failingEnv (str "what is Gooey?") 5
    (PyExc.other (str "embedding model unavailable")) rfl

/-- C9: when the generation call fails with any non-`AttributeError`
exception, or with `AttributeError` and the chat fallback also fails,
`generate_response` returns the apologetic answer carrying the error
detail instead of propagating the exception. -/
theorem generate_response_apologizes :
    (∀ question : PyStr, ∀ chunks : List RetrievedContext, ∀ mascot : PyStr,
      ∀ maxc : Nat, ∀ gen chat : PyStr → Except PyExc PyStr, ∀ e : PyExc,
      (∀ msg, e ≠ PyExc.attributeError msg) →
      gen (promptFor mascot chunks question maxc) = Except.error e →
      generate_response question chunks mascot maxc gen chat =
        apologyMsg ++ e.message) ∧
    (∀ question : PyStr, ∀ chunks : List RetrievedContext, ∀ mascot : PyStr,
      ∀ maxc : Nat, ∀ gen chat : PyStr → Except PyExc PyStr, ∀ msg : PyStr,
      ∀ e : PyExc,
      gen (promptFor mascot chunks question maxc) =
        Except.error (PyExc.attributeError msg) →
      chat (promptFor mascot chunks question maxc) = Except.error e →
      generate_response question chunks mascot maxc gen chat =
        apologyMsg ++ e.message) := by
  constructor
  · intro q chunks mascot maxc gen chat e hne hg
    simp only [promptFor] at hg
    simp only [generate_response]
    rw [hg]
    cases e with
    | zeroDivisionError => rfl
    | indexError => rfl
    | attributeError m => exact absurd rfl (hne m)
    | invalidArgument m => rfl
    | other m => rfl
  · intro q chunks mascot maxc gen chat msg e hg hc
    simp only [promptFor] at hg hc
    simp only [generate_response]
    rw [hg, hc]

/-- C9 witness: a quota failure of the provider yields the apologetic
answer with the error detail. -/
theorem generate_response_apologizes_witness :
    generate_response (str "hi") [] (str "gooey") 16384
      (fun _ => Except.error (PyExc.other (str "429 quota exceeded")))
      (fun _ => Except.ok (str "fallback")) =
      apologyMsg ++ str "429 quota exceeded" :=
  generate_response_apologizes.1 (str "hi") [] (str "gooey") 16384
    (fun _ => Except.error (PyExc.other (str "429 quota exceeded")))
    (fun _ => Except.ok (str "fallback"))
    (PyExc.other (str "429 quota exceeded")) (by intro msg h; cases h) rfl

/-- C10: the numeric magnitude of a positive overlap is irrelevant — the
chunker only tests `overlap > 0`, carrying over the whole last paragraph
of a flushed chunk, so any two overlaps `≥ 1` produce identical output. -/
theorem chunk_text_overlap_magnitude (t : PyStr) (m o1 o2 : Nat)
    (h1 : 1 ≤ o1) (h2 : 1 ≤ o2) :
    chunk_text t m o1 = chunk_text t m o2 := by
  have e1 : (0 < o1) = True := eq_true (by omega)
  have e2 : (0 < o2) = True := eq_true (by omega)
  have hstep : stepPara m o1 = stepPara m o2 := by
    funext st p
    simp only [stepPara, e1, e2]
  unfold chunk_text
  rw [hstep]

/-- C10 witness: overlap `1` and the default overlap `200` coincide on a
concrete text. -/
theorem chunk_text_overlap_magnitude_witness :
    chunk_text (str "aaa\n\nbbb\n\nccc") 7 1 =
      chunk_text (str "aaa\n\nbbb\n\nccc") 7 200 :=
  chunk_text_overlap_magnitude (str "aaa\n\nbbb\n\nccc") 7 1 200
    (by decide) (by decide)

/-- C4: for every request with a valid mascot whose retrieval yields zero
chunks, the endpoint returns exactly the fixed no-context answer with empty
sources and confidence `0`, and the result is independent of the generation
provider — the provider is never invoked on this path. -/
theorem ask_mascot_empty_retrieval (env : RetrievalEnv) (mascot question : PyStr)
    (top_k maxc : Nat) (gen chat gen' chat' : PyStr → Except PyExc PyStr)
    (hmascot : mascot = str "gooey" ∨ mascot = str "bill")
    (hretr : retrieve_context env question top_k = []) :
    ask_mascot env mascot question top_k maxc gen chat =
      Except.ok { response := noContextResponse, sources := [], confidence := 0 } ∧
    ask_mascot env mascot question top_k maxc gen chat =
      ask_mascot env mascot question top_k maxc gen' chat' := by
  have hfind : (MASCOT_PERSONALITIES.find?
      (fun kv => decide (kv.1 = mascot))).isNone = false := by
    rcases hmascot with h | h <;> subst h <;> rfl
  constructor <;> simp [ask_mascot, hfind, hretr]

/-- C4 witness: a request against a downed store with a valid mascot gets
the fixed answer; the generation oracle used is immaterial. -/
theorem ask_mascot_empty_retrieval_witness :
    ask_mascot failingEnv (str "gooey") (str "hello") 5 16384
      (fun _ => Except.ok (str "generated")) (fun _ => Except.ok (str "generated")) =
      Except.ok { response := noContextResponse, sources := [], confidence := 0 } :=
  (ask_mascot_empty_retrieval failingEnv (str "gooey") (str "hello") 5 16384
    (fun _ => Except.ok (str "generated")) (fun _ => Except.ok (str "generated"))
    (fun _ => Except.error (PyExc.other [])) (fun _ => Except.ok [])
    (Or.inl rfl) rfl).1

set_option maxRecDepth 40000 in
/-- C5 counterexample: with an empty personality and question, one retrieved
chunk and budget `0`, the prompt is over budget but `available` is negative;
Python's negative slice empties the context block, so the truncated context
has `0` characters, not "exactly `available`" (which is negative and cannot
be any string's length). -/
theorem buildPrompt_negative_available :
    buildPrompt [] [distChunk 0] [] 0 =
      promptHead [] ++ truncationMarker ++ promptTail [] ∧
    availableChars [] [] 0 < 0 := by
  constructor
  · rfl
  · decide

/-- C5 amended: whenever the head and tail alone fit the budget
(`available ≥ 0`): an under-budget prompt is the pure concatenation
`head ++ context ++ tail`; an over-budget prompt truncates the context block
to exactly `maxc - len(head) - len(tail)` characters followed by the literal
truncation marker; and in all cases the personality and the
`"\n\nQuestion: <question>\n\nAnswer:"` tail appear verbatim. -/
theorem buildPrompt_budget (personality question : PyStr)
    (chunks : List RetrievedContext) (maxc : Nat)
    (hroom : (promptHead personality).length + (promptTail question).length ≤ maxc) :
    ((promptHead personality).length + (contextBlock chunks).length +
        (promptTail question).length ≤ maxc →
      buildPrompt personality chunks question maxc =
        promptHead personality ++ contextBlock chunks ++ promptTail question) ∧
    (maxc < (promptHead personality).length + (contextBlock chunks).length +
        (promptTail question).length →
      buildPrompt personality chunks question maxc =
        promptHead personality ++
          ((contextBlock chunks).take
            (maxc - (promptHead personality).length - (promptTail question).length) ++
            truncationMarker) ++ promptTail question ∧
      ((contextBlock chunks).take
        (maxc - (promptHead personality).length - (promptTail question).length)).length =
        maxc - (promptHead personality).length - (promptTail question).length) ∧
    (∃ pre : PyStr, buildPrompt personality chunks question maxc =
      pre ++ promptTail question) ∧
    (∃ post : PyStr, buildPrompt personality chunks question maxc =
      personality ++ post) := by
  have hplen : (personality ++ promptPreamble ++ contextBlock chunks ++
      promptTail question).length =
      (promptHead personality).length + (contextBlock chunks).length +
      (promptTail question).length := by
    simp only [promptHead, List.length_append]
  have hshape : ∃ mid : PyStr, buildPrompt personality chunks question maxc =
      personality ++ promptPreamble ++ mid ++ promptTail question := by
    simp only [buildPrompt]
    by_cases hb : maxc < (personality ++ promptPreamble ++ contextBlock chunks ++
        promptTail question).length
    · rw [if_pos hb]
      refine ⟨if availableChars personality question maxc <
          ((contextBlock chunks).length : Int) then
          pyTake (contextBlock chunks) (availableChars personality question maxc) ++
            truncationMarker
        else contextBlock chunks, ?_⟩
      simp [promptHead, List.append_assoc]
    · rw [if_neg hb]
      exact ⟨contextBlock chunks, rfl⟩
  refine ⟨?_, ?_, ?_, ?_⟩
  · intro hunder
    simp only [buildPrompt]
    rw [if_neg (by omega)]
    simp [promptHead, List.append_assoc]
  · intro hover
    have hava : availableChars personality question maxc =
        ((maxc - (promptHead personality).length -
          (promptTail question).length : Nat) : Int) := by
      simp only [availableChars]
      omega
    have hctx : maxc - (promptHead personality).length -
        (promptTail question).length < (contextBlock chunks).length := by
      omega
    simp only [buildPrompt]
    rw [if_pos (by omega)]
    rw [if_pos (by rw [hava]; exact_mod_cast hctx)]
    constructor
    · have htake : pyTake (contextBlock chunks)
          (availableChars personality question maxc) =
          (contextBlock chunks).take
            (maxc - (promptHead personality).length - (promptTail question).length) := by
        rw [hava]
        simp [pyTake]
      rw [htake]
    · rw [List.length_take]
      omega
  · obtain ⟨mid, hmid⟩ := hshape
    exact ⟨personality ++ promptPreamble ++ mid, by rw [hmid]⟩
  · obtain ⟨mid, hmid⟩ := hshape
    refine ⟨promptPreamble ++ (mid ++ promptTail question), ?_⟩
    rw [hmid]
    simp [List.append_assoc]

set_option maxRecDepth 40000 in
/-- C5 witness: an under-budget concrete prompt is the pure concatenation. -/
theorem buildPrompt_budget_witness :
    buildPrompt [] [] [] 1000 =
      promptHead [] ++ contextBlock [] ++ promptTail [] :=
  (buildPrompt_budget [] [] [] 1000 (by decide)).1 (by decide)

/-- A double newline in the tail means one in the whole list. -/
theorem hasNN_tail {c : Char} {t : PyStr} (h : hasNN (c :: t) = false) :
    hasNN t = false := by
  cases t with
  | nil => rfl
  | cons d rest =>
    simp only [hasNN, Bool.or_eq_false_iff] at h
    exact h.2

/-- A separator-free list does not start with two newlines. -/
theorem hasNN_head {c d : Char} {rest : PyStr}
    (h : hasNN (c :: d :: rest) = false) : ¬ (c = '\n' ∧ d = '\n') := by
  simp only [hasNN, Bool.or_eq_false_iff] at h
  rintro ⟨rfl, rfl⟩
  simp at h

/-- Newline collapsing leaves a separator-free text unchanged. -/
theorem collapseNewlines_no_sep (t : PyStr) (h : hasNN t = false) :
    collapseNewlines t = t := by
  induction t with
  | nil => rfl
  | cons c rest ih =>
    have hcond : ¬ (c = '\n' ∧ rest.head? = some '\n' ∧
        rest.tail.head? = some '\n') := by
      rintro ⟨hc, h1, h2⟩
      cases rest with
      | nil => simp at h1
      | cons d rest2 =>
        have hd : d = '\n' := by simpa using h1
        exact hasNN_head h ⟨hc, hd⟩
    simp only [collapseNewlines]
    rw [if_neg hcond, ih (hasNN_tail h)]

/-- Splitting a separator-free text on the paragraph separator yields the
text itself as the only paragraph. -/
theorem splitParas_no_sep (t : PyStr) (h : hasNN t = false) :
    splitParas t = [t] := by
  induction t with
  | nil => rfl
  | cons c rest ih =>
    cases rest with
    | nil => rfl
    | cons d rest2 =>
      simp only [splitParas]
      rw [if_neg (hasNN_head h), ih (hasNN_tail h)]
      rfl

/-- Stripping never lengthens a string. -/
theorem pyStrip_length_le (s : PyStr) : (pyStrip s).length ≤ s.length := by
  have h1 : (s.dropWhile pyIsSpace).length ≤ s.length :=
    (List.dropWhile_sublist _).length_le
  have h2 : ((s.dropWhile pyIsSpace).reverse.dropWhile pyIsSpace).length ≤
      (s.dropWhile pyIsSpace).reverse.length :=
    (List.dropWhile_sublist _).length_le
  unfold pyStrip
  rw [List.length_reverse]
  rw [List.length_reverse] at h2
  omega

/-- C8: the chunker is a total function of its input (the embedding returns
a plain list, never an error); an empty input yields zero chunks; a
paragraph that strips to nothing leaves the loop state untouched (it is
dropped before accumulation); and a non-whitespace text without the
`"\n\n"` paragraph separator whose length is at most `max_chunk_size`
yields exactly one chunk, its stripped self. -/
theorem chunk_text_edge_cases :
    (∀ m o : Nat, chunk_text [] m o = []) ∧
    (∀ m o : Nat, ∀ st : ChunkState, ∀ p : PyStr,
      pyStrip p = [] → stepPara m o st p = st) ∧
    (∀ t : PyStr, ∀ m o : Nat, hasNN t = false → pyStrip t ≠ [] →
      t.length ≤ m → chunk_text t m o = [pyStrip t]) := by
  refine ⟨?_, ?_, ?_⟩
  · intro m o; rfl
  · intro m o st p hp
    simp [stepPara, hp]
  · intro t m o hno hstrip hlen
    have hc : collapseNewlines t = t := collapseNewlines_no_sep t hno
    have hs : splitParas t = [t] := splitParas_no_sep t hno
    have hple : (pyStrip t).length ≤ t.length := pyStrip_length_le t
    simp only [chunk_text]
    rw [hc, hs]
    have hstep : stepPara m o ⟨[], [], 0⟩ t =
        ⟨[], [pyStrip t], 0 + (pyStrip t).length + 2⟩ := by
      simp only [stepPara]
      rw [if_neg hstrip, if_neg (by omega), if_neg (by simp)]
      rfl
    simp only [List.foldl]
    rw [hstep]
    rw [if_neg (by simp)]
    rfl

/-- C8 witness: a short separator-free text chunks to itself. -/
theorem chunk_text_edge_cases_witness :
    chunk_text (str "hello world") 1000 200 = [str "hello world"] :=
  (chunk_text_edge_cases.2.2 (str "hello world") 1000 200 (by decide) (by decide)
    (by decide)).trans (by decide)

/-- A join extended by one more part appends a separator and the part. -/
theorem joinNN_append_single (l : List PyStr) (x : PyStr) (h : l ≠ []) :
    joinNN (l ++ [x]) = joinNN l ++ '\n' :: '\n' :: x := by
  induction l with
  | nil => exact absurd rfl h
  | cons y ys ih =>
    cases ys with
    | nil => rfl
    | cons z zs =>
      have ihz := ih (by simp)
      calc joinNN ((y :: z :: zs) ++ [x])
          = y ++ '\n' :: '\n' :: joinNN ((z :: zs) ++ [x]) := rfl
        _ = y ++ '\n' :: '\n' :: (joinNN (z :: zs) ++ '\n' :: '\n' :: x) := by
            rw [ihz]
        _ = (y ++ '\n' :: '\n' :: joinNN (z :: zs)) ++ '\n' :: '\n' :: x := by
            simp [List.append_assoc]
        _ = joinNN (y :: z :: zs) ++ '\n' :: '\n' :: x := rfl

/-- Length of a join extended by one more part. -/
theorem joinNN_length_append (l : List PyStr) (x : PyStr) (h : l ≠ []) :
    (joinNN (l ++ [x])).length = (joinNN l).length + 2 + x.length := by
  rw [joinNN_append_single l x h]
  simp only [List.length_append, List.length_cons]
  omega

/-- The last element of a non-empty buffer is one of its elements. -/
theorem lastElem_mem (l : List PyStr) (h : l ≠ []) : lastElem l ∈ l := by
  have hrev : l.reverse ≠ [] := by simpa using h
  cases hr : l.reverse with
  | nil => exact absurd hr hrev
  | cons a as =>
    have ha : a ∈ l.reverse := hr ▸ List.mem_cons_self a as
    rw [List.mem_reverse] at ha
    simpa [lastElem, hr] using ha

/-- One sentence step preserves the chunker invariant, provided the
stripped sentence fits the size bound. -/
theorem stateInv_stepSentence (m : Nat) (st : ChunkState) (sRaw : PyStr)
    (hinv : StateInv m st) (hs : (pyStrip sRaw).length ≤ m) :
    StateInv m (stepSentence m st sRaw) := by
  obtain ⟨hchunks, hbuf, hjoin, hsize, hempty⟩ := hinv
  simp only [stepSentence]
  by_cases h0 : pyStrip sRaw = []
  · rw [if_pos h0]
    exact ⟨hchunks, hbuf, hjoin, hsize, hempty⟩
  · rw [if_neg h0]
    by_cases h1 : m < st.size + (pyStrip sRaw).length
    · rw [if_pos h1]
      refine ⟨?_, ?_, ?_, ?_, ?_⟩ <;> dsimp only
      · intro c hc
        by_cases hb : st.buf = []
        · rw [if_pos hb] at hc
          exact hchunks c hc
        · rw [if_neg hb] at hc
          rcases List.mem_append.mp hc with hc | hc
          · exact hchunks c hc
          · rw [List.mem_singleton.mp hc]
            exact hjoin.trans hsize
      · intro e he
        rw [List.mem_singleton.mp he]
        exact hs
      · simp [joinNN]
      · omega
      · intro hb
        exact absurd hb (by simp)
    · rw [if_neg h1]
      push_neg at h1
      refine ⟨?_, ?_, ?_, ?_, ?_⟩ <;> dsimp only
      · exact hchunks
      · intro e he
        rcases List.mem_append.mp he with he | he
        · exact hbuf e he
        · rw [List.mem_singleton.mp he]
          exact hs
      · by_cases hb : st.buf = []
        · rw [hb]
          simp only [List.nil_append, joinNN]
          omega
        · rw [joinNN_length_append _ _ hb]
          omega
      · omega
      · intro hb
        exact absurd hb (by simp)

/-- The sentence loop preserves the chunker invariant when every stripped
sentence fits the size bound. -/
theorem stateInv_foldl_sentences (m : Nat) (l : List PyStr) :
    ∀ st : ChunkState, StateInv m st → (∀ s ∈ l, (pyStrip s).length ≤ m) →
    StateInv m (l.foldl (stepSentence m) st) := by
  induction l with
  | nil =>
    intro st h _
    exact h
  | cons s rest ih =>
    intro st h hl
    simp only [List.foldl_cons]
    exact ih _ (stateInv_stepSentence m st s h (hl s (List.mem_cons_self s rest)))
      (fun x hx => hl x (List.mem_cons_of_mem s hx))

/-- One paragraph step preserves the chunker invariant, provided every
sentence of an oversized paragraph fits the size bound. -/
theorem stateInv_stepPara (m o : Nat) (st : ChunkState) (pRaw : PyStr)
    (hinv : StateInv m st)
    (hp : m < (pyStrip pRaw).length →
      ∀ s ∈ splitSentences (pyStrip pRaw), (pyStrip s).length ≤ m) :
    StateInv m (stepPara m o st pRaw) := by
  obtain ⟨hchunks, hbuf, hjoin, hsize, hempty⟩ := hinv
  simp only [stepPara]
  by_cases h0 : pyStrip pRaw = []
  · rw [if_pos h0]
    exact ⟨hchunks, hbuf, hjoin, hsize, hempty⟩
  · rw [if_neg h0]
    by_cases h1 : m < (pyStrip pRaw).length
    · rw [if_pos h1]
      have hst1 : StateInv m (if st.buf = [] then st
          else { chunks := st.chunks ++ [joinNN st.buf], buf := [], size := 0 }) := by
        by_cases hb : st.buf = []
        · rw [if_pos hb]
          exact ⟨hchunks, hbuf, hjoin, hsize, hempty⟩
        · rw [if_neg hb]
          refine ⟨?_, ?_, ?_, ?_, ?_⟩ <;> dsimp only
          · intro c hc
            rcases List.mem_append.mp hc with hc | hc
            · exact hchunks c hc
            · rw [List.mem_singleton.mp hc]
              exact hjoin.trans hsize
          · intro e he
            exact absurd he (List.not_mem_nil e)
          · simp [joinNN]
          · omega
          · intro _
            rfl
      exact stateInv_foldl_sentences m _ _ hst1 (hp h1)
    · rw [if_neg h1]
      push_neg at h1
      by_cases h2 : m < st.size + (pyStrip pRaw).length ∧ st.buf ≠ []
      · rw [if_pos h2]
        by_cases h3 : 0 < o ∧ st.buf ≠ []
        · rw [if_pos h3]
          have hov : (lastElem st.buf).length ≤ m :=
            hbuf _ (lastElem_mem _ h2.2)
          refine ⟨?_, ?_, ?_, ?_, ?_⟩ <;> dsimp only
          · intro c hc
            rcases List.mem_append.mp hc with hc | hc
            · exact hchunks c hc
            · rw [List.mem_singleton.mp hc]
              exact hjoin.trans hsize
          · intro e he
            simp only [List.mem_cons, List.not_mem_nil, or_false] at he
            rcases he with rfl | rfl
            · exact hov
            · exact h1
          · simp only [joinNN, List.length_append, List.length_cons]
            omega
          · omega
          · intro hb
            exact absurd hb (by simp)
        · rw [if_neg h3]
          refine ⟨?_, ?_, ?_, ?_, ?_⟩ <;> dsimp only
          · intro c hc
            rcases List.mem_append.mp hc with hc | hc
            · exact hchunks c hc
            · rw [List.mem_singleton.mp hc]
              exact hjoin.trans hsize
          · intro e he
            rw [List.mem_singleton.mp he]
            exact h1
          · simp [joinNN]
          · omega
          · intro hb
            exact absurd hb (by simp)
      · rw [if_neg h2]
        have hcase : st.size + (pyStrip pRaw).length ≤ m ∨ st.size = 0 := by
          by_cases hb : st.buf = []
          · right
            exact hempty hb
          · left
            rcases not_and_or.mp h2 with h | h
            · omega
            · exact absurd (by simpa using h) hb
        refine ⟨?_, ?_, ?_, ?_, ?_⟩ <;> dsimp only
        · exact hchunks
        · intro e he
          rcases List.mem_append.mp he with he | he
          · exact hbuf e he
          · rw [List.mem_singleton.mp he]
            exact h1
        · by_cases hb : st.buf = []
          · rw [hb]
            simp only [List.nil_append, joinNN]
            omega
          · rw [joinNN_length_append _ _ hb]
            omega
        · rcases hcase with h | h <;> omega
        · intro hb
          exact absurd hb (by simp)

/-- The paragraph loop preserves the chunker invariant when every sentence
of every oversized paragraph fits the size bound. -/
theorem stateInv_foldl_paras (m o : Nat) (l : List PyStr) :
    ∀ st : ChunkState, StateInv m st →
    (∀ p ∈ l, m < (pyStrip p).length →
      ∀ s ∈ splitSentences (pyStrip p), (pyStrip s).length ≤ m) →
    StateInv m (l.foldl (stepPara m o) st) := by
  induction l with
  | nil =>
    intro st h _
    exact h
  | cons p rest ih =>
    intro st h hl
    simp only [List.foldl_cons]
    exact ih _ (stateInv_stepPara m o st p h (hl p (List.mem_cons_self p rest)))
      (fun x hx => hl x (List.mem_cons_of_mem p hx))

set_option maxRecDepth 40000 in
/-- C7 counterexample: a single oversized paragraph of one thirty-character
sentence followed by one five-character sentence, with `max_chunk_size = 10`
and `overlap = 0`, produces a first chunk of length `30 > 10`: a
sentence-derived chunk over the bound that is not the last one. -/
theorem chunk_text_nonlast_oversized_chunk :
    chunk_text bigSentencePara 10 0 =
      [List.replicate 30 'A', List.replicate 5 'B'] ∧
    10 < (List.replicate 30 'A').length := by
  constructor
  · decide
  · decide

/-- C7 amended: for every text, `max_chunk_size > 0` and overlap, every
chunk produced by `chunk_text` has length at most
`2 * max_chunk_size + 2` — the bound plus the carryover of one whole
overlap paragraph and its two-character separator — provided every stripped
sentence obtained from splitting an oversized paragraph is itself at most
`max_chunk_size` long (without that proviso any chunk holding an oversized
sentence, not only the last one, may exceed the bound). -/
theorem chunk_text_size_bound (text : PyStr) (m o : Nat) (_hm : 0 < m)
    (hsent : ∀ p ∈ splitParas (collapseNewlines text),
      m < (pyStrip p).length →
      ∀ s ∈ splitSentences (pyStrip p), (pyStrip s).length ≤ m) :
    ∀ c ∈ chunk_text text m o, c.length ≤ 2 * m + 2 := by
  intro c hc
  have hinv0 : StateInv m ⟨[], [], 0⟩ := by
    refine ⟨?_, ?_, ?_, ?_, ?_⟩ <;> simp [joinNN]
  have hinv := stateInv_foldl_paras m o (splitParas (collapseNewlines text))
    ⟨[], [], 0⟩ hinv0 hsent
  obtain ⟨hchunks, hbuf, hjoin, hsize, hempty⟩ := hinv
  simp only [chunk_text] at hc
  by_cases hb : ((splitParas (collapseNewlines text)).foldl (stepPara m o)
      ⟨[], [], 0⟩).buf = []
  · rw [if_pos hb] at hc
    exact hchunks c hc
  · rw [if_neg hb] at hc
    rcases List.mem_append.mp hc with hc | hc
    · exact hchunks c hc
    · rw [List.mem_singleton.mp hc]
      exact hjoin.trans hsize

set_option maxRecDepth 40000 in
/-- C7 witness: on a three-paragraph text with no oversized paragraph the
bound applies; the middle chunk indeed satisfies it. -/
theorem chunk_text_size_bound_witness :
    (str "aaa\n\nbbb" ∈ chunk_text (str "aaa\n\nbbb\n\nccc") 7 200) ∧
    (str "aaa\n\nbbb").length ≤ 2 * 7 + 2 :=
  ⟨by decide, chunk_text_size_bound (str "aaa\n\nbbb\n\nccc") 7 200 (by decide)
    (by decide) (str "aaa\n\nbbb") (by decide)⟩
